import Mathlib

/-!
Verification of the PFAC Pro contact scraper.

Shallow embedding of `scraper/contactScraper.js` (field parsers, row
record-building, detail-page email extraction, pagination, and the
checkpointed CSV writer), together with proofs of the specification
claims about it.

JavaScript strings are modelled as `String` / `List Char`; the concrete
regular expressions of the source are modelled by dedicated executable
matchers that implement the exact leftmost-match / greedy / lazy
semantics of each pattern.  Fallible browser operations are modelled by
`Except String` values supplied by an environment.
-/

namespace Scraper

/-! ## Generic string helpers (JS primitive semantics) -/

/-- `String.prototype.trim()`: strip leading and trailing whitespace
(char-list level, so that terms reduce in the kernel). -/
def trimL (l : List Char) : List Char :=
  ((l.dropWhile Char.isWhitespace).reverse.dropWhile Char.isWhitespace).reverse

/-- String-level wrapper for `trimL`. -/
def trimStr (s : String) : String :=
  String.mk (trimL s.data)

/-- `String.prototype.split` with a character predicate as separator
(JS semantics: `"".split` yields `[""]`, adjacent separators yield
empty pieces). -/
def splitL (p : Char → Bool) : List Char → List (List Char)
  | [] => [[]]
  | c :: rest =>
    let ts := splitL p rest
    if p c then [] :: ts
    else (c :: ts.headI) :: ts.tail

/-- String-level wrapper for `splitL`. -/
def splitStr (p : Char → Bool) (s : String) : List String :=
  (splitL p s.data).map String.mk

/-- `String.prototype.toUpperCase()` (ASCII, as the source only meets
ASCII state codes). -/
def toUpperStr (s : String) : String :=
  String.mk (s.data.map Char.toUpper)

/-- `String.prototype.toLowerCase()` (ASCII). -/
def toLowerStr (s : String) : String :=
  String.mk (s.data.map Char.toLower)

/-- `Array.prototype.join(sep)`: elements joined with a separator. -/
def joinSep (sep : String) : List String → String
  | [] => ""
  | [a] => a
  | a :: rest => a ++ sep ++ joinSep sep rest

/-- `String.prototype.split(/\s+/)` applied to an already-trimmed string:
the empty string yields the single empty token (as in JS), otherwise the
maximal whitespace-separated words. -/
def splitWhitespace (s : String) : List String :=
  if s = "" then [""]
  else (splitStr Char.isWhitespace s).filter (fun t => t ≠ "")

/-- `String.prototype.charAt(0)` as a string: empty on the empty string. -/
def jsCharAt0 (s : String) : String :=
  match s.data with
  | [] => ""
  | c :: _ => String.mk [c]

/-- Replace the first occurrence of `pat` by `rep`
(JS `String.prototype.replace` with a plain-string pattern). -/
def replaceFirstAux (pat rep : List Char) : List Char → List Char
  | [] => []
  | c :: rest =>
    if pat.isPrefixOf (c :: rest) then rep ++ (c :: rest).drop pat.length
    else c :: replaceFirstAux pat rep rest

/-- String-level wrapper for `replaceFirstAux`. -/
def replaceFirstStr (pat rep s : String) : String :=
  String.mk (replaceFirstAux pat.data rep.data s.data)

/-- `String.prototype.includes(sub)` (substring containment). -/
def strIncludes (s sub : String) : Bool :=
  s.data.tails.any (fun t => sub.data.isPrefixOf t)

/-- Scan a string left to right, returning the result of the first
position at which the positional matcher `f` succeeds.  This is the
leftmost-match discipline of `String.prototype.match`. -/
def scanFirst {α : Type} (f : List Char → Option α) : List Char → Option α
  | [] => f []
  | c :: rest =>
    match f (c :: rest) with
    | some r => some r
    | none => scanFirst f rest

/-- Match exactly `n` characters satisfying `p`, returning them and the
rest of the input (regex `x{n}` for a character class `x`). -/
def takeExact (p : Char → Bool) : Nat → List Char → Option (List Char × List Char)
  | 0, cs => some ([], cs)
  | _ + 1, [] => none
  | n + 1, c :: cs =>
    if p c then
      match takeExact p n cs with
      | some (a, r) => some (c :: a, r)
      | none => none
    else none

/-- Optionally match one character equal to `ch` (regex `x?`). -/
def optChar (ch : Char) : List Char → (List Char × List Char)
  | [] => ([], [])
  | c :: cs => if c = ch then ([c], cs) else ([], c :: cs)

/-- Optionally match one character satisfying `p` (regex `[x]?`). -/
def optPred (p : Char → Bool) : List Char → (List Char × List Char)
  | [] => ([], [])
  | c :: cs => if p c then ([c], cs) else ([], c :: cs)

/-! ## Field parsers -/

/-- Result of `parseName`. -/
structure NameParts where
  firstName : String
  middleInitial : String
  lastName : String
  deriving DecidableEq, Repr

/-- The token list `fullName.trim().split(/\s+/)` that `parseName`
branches on. -/
def nameTokens (s : String) : List String :=
  splitWhitespace (trimStr s)

/-- The middle-token test
`middlePart.length === 1 || (middlePart.length === 2 && middlePart.endsWith('.'))`. -/
def isInitialTok (b : String) : Bool :=
  b.length = 1 || (b.length = 2 && b.data.getLast? = some '.')

/-- `parseName` from the source: split a full name into first name,
middle initial and last name. -/
def parseName (fullName : String) : NameParts :=
  if fullName = "" then ⟨"", "", ""⟩
  else
    match nameTokens fullName with
    | [] => ⟨"", "", ""⟩
    | [a] => ⟨a, "", ""⟩
    | [a, b] => ⟨a, "", b⟩
    | a :: b :: rest =>
      if isInitialTok b then
        ⟨a, replaceFirstStr "." "" b, joinSep " " rest⟩
      else
        ⟨a, jsCharAt0 b, joinSep " " rest⟩

/-- Result of `parseAddress`. -/
structure AddressParts where
  address1 : String
  address2 : String
  city : String
  state : String
  zip : String
  deriving DecidableEq, Repr

/-- `addressText.split('\n').map(l => l.trim()).filter(l => l)`. -/
def addressLines (text : String) : List String :=
  ((splitStr (fun c => c = '\n') text).map trimStr).filter fun l => l ≠ ""

/-- Tail of the city/state/zip patterns:
`,?\s+([A-Z]{2})\s+(\d{5}(?:-\d{4})?)`.
`letter` decides the state-letter class (`Char.isAlpha` for the
case-insensitive variant, `Char.isUpper` for the case-sensitive one);
`anchored` requires the match to end at the end of input (regex `$`).
Returns the captured state and zip. -/
def cszTail (letter : Char → Bool) (anchored : Bool) (cs : List Char) :
    Option (String × String) :=
  -- ,?
  let cs1 := match cs with
    | ',' :: r => r
    | r => r
  -- \s+ (maximal; characters of the run cannot satisfy `letter`)
  let w1 := cs1.takeWhile Char.isWhitespace
  let r1 := cs1.drop w1.length
  if w1 = [] then none
  else
    match r1 with
    | a :: b :: r2 =>
      if letter a && letter b then
        -- \s+ before the zip
        let w2 := r2.takeWhile Char.isWhitespace
        let r3 := r2.drop w2.length
        if w2 = [] then none
        else
          match takeExact Char.isDigit 5 r3 with
          | some (d5, r4) =>
            let st := String.mk [a, b]
            match r4 with
            | '-' :: r5 =>
              match takeExact Char.isDigit 4 r5 with
              | some (d4, r6) =>
                if anchored && r6 ≠ [] then
                  -- `(?:-\d{4})?` succeeded but `$` fails, and skipping the
                  -- group leaves `$` at '-': no match.
                  none
                else some (st, String.mk (d5 ++ '-' :: d4))
              | none =>
                -- group `-\d{4}` fails; skipping it leaves '-' unconsumed,
                -- which only matters when anchored.
                if anchored then none else some (st, String.mk d5)
            | [] => some (st, String.mk d5)
            | _ =>
              if anchored then none else some (st, String.mk d5)
          | none => none
      else none
    | _ => none

/-- `^(.+?),?\s+([A-Z]{2})\s+(\d{5}(?:-\d{4})?)$/i` from `parseAddress`:
lazy city prefix (shortest first), case-insensitive state, anchored at
both ends.  Returns (city, state, zip) captures. -/
def cityStateZipLineAux (pre : List Char) : List Char → Option (String × String × String)
  | [] => none
  | c :: rest =>
    if c = '\n' then none  -- `.` does not match a newline
    else
      match cszTail Char.isAlpha true rest with
      | some (st, z) => some (String.mk (pre ++ [c]), st, z)
      | none => cityStateZipLineAux (pre ++ [c]) rest

/-- See `cityStateZipLineAux`. -/
def cityStateZipLine (line : String) : Option (String × String × String) :=
  cityStateZipLineAux [] line.data

/-- `parseAddress` from the source: split an address block into
address1/address2/city/state/zip. -/
def parseAddress (addressText : String) : AddressParts :=
  if addressText = "" then ⟨"", "", "", "", ""⟩
  else
    let lines := addressLines addressText
    let address1 := match lines with
      | [] => ""
      | l :: _ => l
    if 2 ≤ lines.length then
      match cityStateZipLine lines.getLast! with
      | some (c, st, z) =>
        let address2 := if 2 < lines.length then joinSep ", " ((lines.drop 1).dropLast) else ""
        ⟨address1, address2, trimStr c, toUpperStr st, z⟩
      | none => ⟨address1, joinSep ", " (lines.drop 1), "", "", ""⟩
    else ⟨address1, "", "", "", ""⟩

/-- `cleanPhone` from the source:
`phone.replace(/[^\d-().\s+]/g, '').trim()`. -/
def keepPhoneChar (c : Char) : Bool :=
  c.isDigit || c = '-' || c = '(' || c = ')' || c = '.' || c.isWhitespace || c = '+'

/-- See `keepPhoneChar`. -/
def cleanPhone (phone : String) : String :=
  trimStr (String.mk (phone.data.filter keepPhoneChar))

/-! ## Email matchers (`[\w.-]+@[\w.-]+\.\w{n,}`) -/

/-- JS `\w`: `[A-Za-z0-9_]`. -/
def isWordChar (c : Char) : Bool :=
  c.isAlphanum || c = '_'

/-- The class `[\w.-]`. -/
def isEmailChar (c : Char) : Bool :=
  isWordChar c || c = '.' || c = '-'

/-- Backtracking of `[\w.-]+\.\w{minTld,}` over the post-`@` run `d`:
the rightmost `'.'` in `d` whose following maximal `\w` run has length at
least `minTld`.  Returns (chars before the dot, the word run, leftover of
`d` after the word run). -/
def splitAtLastValidDot (minTld : Nat) : List Char → Option (List Char × List Char × List Char)
  | [] => none
  | c :: rest =>
    match splitAtLastValidDot minTld rest with
    | some (pre, w, leftover) => some (c :: pre, w, leftover)
    | none =>
      if c = '.' then
        let w := rest.takeWhile isWordChar
        if minTld ≤ w.length then some ([], w, rest.drop w.length) else none
      else none

/-- Match `[\w.-]+@[\w.-]+\.\w{minTld,}` at the current position,
returning the matched text and the rest of the input after it. -/
def tryEmailAt (minTld : Nat) (cs : List Char) : Option (List Char × List Char) :=
  let r1 := cs.takeWhile isEmailChar
  let s1 := cs.drop r1.length
  if r1 = [] then none
  else
    match s1 with
    | '@' :: s2 =>
      let d := s2.takeWhile isEmailChar
      let s3 := s2.drop d.length
      match splitAtLastValidDot minTld d with
      | some (pre, w, leftover) =>
        if pre = [] then none  -- `[\w.-]+` before the final dot needs ≥ 1 char
        else some (r1 ++ '@' :: pre ++ '.' :: w, leftover ++ s3)
      | none => none
    | _ => none

/-- All matches of `/[\w.-]+@[\w.-]+\.\w{2,}/g` in document order
(method 2 of `getEmailFromDetailPage`).  The fuel starts at
`length + 1`; every step strictly consumes input, so it never runs out. -/
def findEmailsAux : Nat → List Char → List String
  | 0, _ => []
  | _ + 1, [] => []
  | fuel + 1, c :: rest =>
    match tryEmailAt 2 (c :: rest) with
    | some (m, leftover) => String.mk m :: findEmailsAux fuel leftover
    | none => findEmailsAux fuel rest

/-- See `findEmailsAux`. -/
def findEmails (s : String) : List String :=
  findEmailsAux (s.data.length + 1) s.data

/-- `cleanEmail` from the source: first match of
`/[\w.-]+@[\w.-]+\.\w+/`, lower-cased; empty if none. -/
def cleanEmail (email : String) : String :=
  match scanFirst (fun cs => (tryEmailAt 1 cs).map (fun p => p.1)) email.data with
  | some m => toLowerStr (String.mk m)
  | none => ""

/-! ## CSV writer -/

/-- A scraped contact (the object literal built by `parseContactFromRow`
and completed with `email`). -/
structure ContactRecord where
  firstName : String
  middleInitial : String
  lastName : String
  address1 : String
  address2 : String
  city : String
  state : String
  zip : String
  phone : String
  email : String
  deriving DecidableEq, Repr, Inhabited

/-- `CSV_HEADERS` from the source. -/
def CSV_HEADERS : List String :=
  ["First Name", "Middle Initial", "Last Name", "Address1", "Address2",
   "City", "State", "Zip", "Phone", "Email"]

/-- The field list of one CSV row, in the order `toCSV` emits them. -/
def contactFields (c : ContactRecord) : List String :=
  [c.firstName, c.middleInitial, c.lastName, c.address1, c.address2,
   c.city, c.state, c.zip, c.phone, c.email]

/-- `str.includes(',') || str.includes('"') || str.includes('\n')`. -/
def needsQuote (s : String) : Bool :=
  s.data.contains ',' || s.data.contains '"' || s.data.contains '\n'

/-- `str.replace(/"/g, '""')` at the character level. -/
def doubleQuotesL : List Char → List Char
  | [] => []
  | c :: rest => if c = '"' then '"' :: '"' :: doubleQuotesL rest else c :: doubleQuotesL rest

/-- `escapeCSV` from the source; `none` models a `null`/`undefined`
field. -/
def escapeCSV (field : Option String) : String :=
  match field with
  | none => ""
  | some s =>
    if needsQuote s then String.mk ('"' :: doubleQuotesL s.data ++ ['"'])
    else s

/-- One data row of `toCSV`. -/
def csvRow (c : ContactRecord) : String :=
  joinSep "," ((contactFields c).map fun f => escapeCSV (some f))

/-- `toCSV` from the source: header row plus one row per contact,
joined with newlines. -/
def toCSV (contacts : List ContactRecord) : String :=
  joinSep "\n" (joinSep "," (CSV_HEADERS.map fun h => escapeCSV (some h)) :: contacts.map csvRow)

/-- A standard CSV record parser (the inverse reading discipline named
by the spec: unquote quoted fields, collapse doubled quotes, split on
commas outside quotes).  `inQ` is the inside-quotes state, `acc` the
reversed characters of the current field. -/
def csvParseAux : List Char → Bool → List Char → List String
  | [], _, acc => [String.mk acc.reverse]
  | '"' :: '"' :: rest, true, acc => csvParseAux rest true ('"' :: acc)
  | '"' :: rest, true, acc => csvParseAux rest false acc
  | c :: rest, true, acc => csvParseAux rest true (c :: acc)
  | ',' :: rest, false, acc => String.mk acc.reverse :: csvParseAux rest false []
  | '"' :: rest, false, acc => csvParseAux rest true acc
  | c :: rest, false, acc => csvParseAux rest false (c :: acc)

/-- See `csvParseAux`. -/
def parseCSVRecord (s : String) : List String :=
  csvParseAux s.data false []

/-! ## Row parsing (`parseContactFromRow`) -/

/-- The separator class `[-.\s]` of the phone pattern. -/
def isSepChar (c : Char) : Bool :=
  c = '-' || c = '.' || c.isWhitespace

/-- Match `\(?\d{3}\)?[-.\s]?\d{3}[-.\s]?\d{4}` at the current position.
Each optional item is greedy; as no alternative can be rescued by
backtracking (the follow-up always needs a digit), the greedy
first-choice result is the regex result. -/
def tryPhoneAt (cs : List Char) : Option (List Char) := do
  let (o1, r1) := optChar '(' cs
  let (d1, r2) ← takeExact Char.isDigit 3 r1
  let (o2, r3) := optChar ')' r2
  let (s1, r4) := optPred isSepChar r3
  let (d2, r5) ← takeExact Char.isDigit 3 r4
  let (s2, r6) := optPred isSepChar r5
  let (d3, _) ← takeExact Char.isDigit 4 r6
  pure (o1 ++ d1 ++ o2 ++ s1 ++ d2 ++ s2 ++ d3)

/-- First match of the phone pattern in a string
(`rowText.match(/(\(?\d{3}\)?[-.\s]?\d{3}[-.\s]?\d{4})/)`, capture 1). -/
def phoneRowMatch (s : String) : Option String :=
  (scanFirst tryPhoneAt s.data).map String.mk

/-- The class `[A-Za-z0-9\s,.#-]` of the street-address pattern. -/
def isAddrChar (c : Char) : Bool :=
  c.isAlphanum || c.isWhitespace || c = ',' || c = '.' || c = '#' || c = '-'

/-- Match `\d+\s+[A-Za-z0-9\s,.#-]+` at the current position.  The
whitespace run can lend its trailing characters to the (whitespace-
containing) trailing class, so the match succeeds exactly when at least
two characters follow the digits. -/
def tryAddrAt (cs : List Char) : Option (List Char) :=
  let d := cs.takeWhile Char.isDigit
  let r1 := cs.drop d.length
  if d = [] then none
  else
    let w := r1.takeWhile Char.isWhitespace
    let r2 := r1.drop w.length
    if w = [] then none
    else
      let cl := r2.takeWhile isAddrChar
      if cl = [] then
        if 2 ≤ w.length then some (d ++ w) else none
      else some (d ++ w ++ cl)

/-- First match of the street-address pattern
(`rowText.match(/(\d+\s+[A-Za-z0-9\s,.#-]+)/)`, capture 1). -/
def addrRowMatch (s : String) : Option String :=
  (scanFirst tryAddrAt s.data).map String.mk

/-- The class `[A-Za-z\s]` of the city patterns. -/
def isCityChar (c : Char) : Bool :=
  c.isAlpha || c.isWhitespace

/-- Greedy backtracking of `([A-Za-z\s]+)` before
`,?\s+([A-Z]{2})\s+(\d{5}(?:-\d{4})?)`: shrink the maximal class run
from the right until the tail matches.  `preRev` holds the current
candidate reversed; `anchored` selects the cell variant (`^...$`). -/
def cityShrink (anchored : Bool) (preRev : List Char) (tail : List Char) :
    Option (String × String × String) :=
  match preRev with
  | [] => none
  | c :: preRev2 =>
    match cszTail Char.isUpper anchored tail with
    | some (st, z) => some (String.mk preRev.reverse, st, z)
    | none => cityShrink anchored preRev2 (c :: tail)

/-- Match `([A-Za-z\s]+),?\s+([A-Z]{2})\s+(\d{5}(?:-\d{4})?)` at the
current position (unanchored row-text variant). -/
def tryCityAt (cs : List Char) : Option (String × String × String) :=
  let l := cs.takeWhile isCityChar
  cityShrink false l.reverse (cs.drop l.length)

/-- First match of the city/state/zip pattern in the row text
(`rowText.match(/([A-Za-z\s]+),?\s+([A-Z]{2})\s+(\d{5}(?:-\d{4})?)/)`). -/
def cityRowMatch (s : String) : Option (String × String × String) :=
  scanFirst tryCityAt s.data

/-- The per-cell anchored variant
`cell.match(/^([A-Za-z\s]+),?\s+([A-Z]{2})\s+(\d{5}(?:-\d{4})?)$/)`. -/
def cellCityMatch (cell : String) : Option (String × String × String) :=
  let l := cell.data.takeWhile isCityChar
  cityShrink true l.reverse (cell.data.drop l.length)

/-- `cell.match(/^\d+\s/)`: at least one digit followed by a whitespace
character, at the start of the cell. -/
def startsDigitWs (cell : String) : Bool :=
  let d := cell.data.takeWhile Char.isDigit
  match d, cell.data.drop d.length with
  | [], _ => false
  | _ :: _, c :: _ => c.isWhitespace
  | _ :: _, [] => false

/-- A raw row handed to `parseContactFromRow` by
`extractContactsFromPage`. -/
structure RawRow where
  index : Nat
  name : String
  href : Option String
  rowText : String
  cellTexts : List String
  deriving Repr

/-- The fields mutated by the per-column pass (step 4). -/
structure CellScan where
  address1 : String
  city : String
  state : String
  zip : String
  phone : String
  deriving DecidableEq, Repr

/-- The body of the `cellTexts.forEach` per-column pass: a phone-shaped
cell fills `phone` if unset, a city/state/zip-shaped cell fills those
three if `city` is unset, a cell starting with digits fills `address1`
if unset; the name column (index 0) is skipped.  A cell whose guard
fails falls through to the next check, as in the source. -/
def applyCell (st : CellScan) (p : Nat × String) : CellScan :=
  let i := p.1
  let cell := p.2
  if i = 0 then st
  else
    match phoneRowMatch cell with
    | some pm =>
      if st.phone = "" then { st with phone := cleanPhone pm }
      else applyCellCity st cell
    | none => applyCellCity st cell
where
  /-- city/state/zip check, then the leading-digit address check. -/
  applyCellCity (st : CellScan) (cell : String) : CellScan :=
    match cellCityMatch cell with
    | some (c, s2, z) =>
      if st.city = "" then { st with city := trimStr c, state := s2, zip := z }
      else applyCellAddr st cell
    | none => applyCellAddr st cell
  /-- leading-digit address check. -/
  applyCellAddr (st : CellScan) (cell : String) : CellScan :=
    if startsDigitWs cell && st.address1 = "" then { st with address1 := cell }
    else st

/-- `parseContactFromRow` from the source: row-text regex guesses
(steps 1–3), then the per-column pass (step 4), then assembly. -/
def parseContactFromRow (rowData : RawRow) : ContactRecord :=
  let n := parseName rowData.name
  -- step 1: phone from the whole row text
  let phone := match phoneRowMatch rowData.rowText with
    | some m => cleanPhone m
    | none => ""
  -- step 2: street address from the whole row text
  let addr12 := match addrRowMatch rowData.rowText with
    | some m =>
      let ap := parseAddress m
      (ap.address1, ap.address2)
    | none => ("", "")
  -- step 3: city/state/zip from the whole row text
  let csz := match cityRowMatch rowData.rowText with
    | some (c, s, z) => (trimStr c, s, z)
    | none => ("", "", "")
  -- step 4: per-column refinement of still-empty fields
  let st0 : CellScan := ⟨addr12.1, csz.1, csz.2.1, csz.2.2, phone⟩
  let st :=
    if 1 < rowData.cellTexts.length then rowData.cellTexts.enum.foldl applyCell st0
    else st0
  { firstName := n.firstName
    middleInitial := n.middleInitial
    lastName := n.lastName
    address1 := st.address1
    address2 := addr12.2
    city := st.city
    state := st.state
    zip := st.zip
    phone := st.phone
    email := "" }

/-! ## Detail visitor (`getEmailFromDetailPage`) -/

/-- An email is "generic" when it contains one of the filtered
substrings (method 2's person-email filter). -/
def isGenericEmail (e : String) : Bool :=
  strIncludes e "noreply" || strIncludes e "support@" ||
  strIncludes e "info@" || strIncludes e "admin@"

/-- `href.replace('mailto:', '').split('?')[0]` (method 1). -/
def stripMailto (href : String) : String :=
  String.mk ((replaceFirstStr "mailto:" "" href).data.takeWhile fun c => c ≠ '?')

/-- Case-insensitive prefix test (`toLowerCase().includes` machinery of
method 3). -/
def ciPrefix (pat : List Char) (cs : List Char) : Bool :=
  (pat.map Char.toLower).isPrefixOf (cs.map Char.toLower)

/-- Method 3's `/email:\s*([\w.-]+@[\w.-]+\.\w+)/i` at one position:
the literal `email:` case-insensitively, optional whitespace, then an
email-shaped substring (capture 1). -/
def tryEmailLabelAt (cs : List Char) : Option (List Char) :=
  if ciPrefix "email:".data cs then
    let rest := (cs.drop 6).dropWhile Char.isWhitespace
    (tryEmailAt 1 rest).map fun p => p.1
  else none

/-- The loaded state of a contact's detail page, as the extraction
script observes it. -/
structure DetailPage where
  /-- `href` of the first `a[href^="mailto:"]` element, if any. -/
  mailtoHref : Option String
  /-- `document.body.innerText`. -/
  bodyText : String
  /-- `innerText` of every element, in document order (method 3). -/
  elementTexts : List String
  deriving Repr

/-- Method 3: first element whose text contains `email:`
(case-insensitively), then the labelled-email pattern on its text. -/
def emailLabelScan (p : DetailPage) : String :=
  match p.elementTexts.find? (fun t => t ≠ "" && strIncludes (toLowerStr t) "email:") with
  | some t =>
    match scanFirst tryEmailLabelAt t.data with
    | some m => String.mk m
    | none => ""
  | none => ""

/-- The `page.evaluate` body of `getEmailFromDetailPage`: mailto link,
then the page-text pattern scan preferring non-generic matches, then
the labelled-email scan. -/
def evalEmail (p : DetailPage) : String :=
  match p.mailtoHref with
  | some href => stripMailto href
  | none =>
    match findEmails p.bodyText with
    | m :: ms =>
      match (m :: ms).filter (fun e => !isGenericEmail e) with
      | pe :: _ => pe
      | [] => m
    | [] => emailLabelScan p

/-- `getEmailFromDetailPage` from the source: the navigation (and
evaluation) step may fail, modelled by an `Except` input; the
`try/catch` turns any failure into the empty string (after a console
warning, which is outside this embedding). -/
def getEmailFromDetailPage (nav : Except String DetailPage) : String :=
  match nav with
  | .error _ => ""
  | .ok page => cleanEmail (evalEmail page)

/-! ## Pagination driver (`goToNextPage`) -/

/-- The located next-page control. -/
structure NextButton where
  classList : List String
  attrs : List (String × String)
  text : String
  deriving Repr

/-- `el.getAttribute(name)`. -/
def getAttr (b : NextButton) (name : String) : Option String :=
  (b.attrs.find? (fun a => a.1 = name)).map (fun a => a.2)

/-- The disabled predicate of `goToNextPage`:
`classList.contains('disabled') || hasAttribute('disabled') ||
getAttribute('aria-disabled') === 'true'`. -/
def isDisabledEval (b : NextButton) : Bool :=
  b.classList.contains "disabled" || (b.attrs.any fun a => a.1 = "disabled") ||
    getAttr b "aria-disabled" = some "true"

/-- The fallible browser operations `goToNextPage` performs, as values
supplied by the environment. -/
structure PageEnv where
  /-- `page.$(nextSelectors)`: locate the control (may throw). -/
  queryNext : Except String (Option NextButton)
  /-- `nextButton.click()` (may throw). -/
  click : Except String Unit
  /-- `page.waitForTimeout(...)` (may throw). -/
  waitTimeout : Except String Unit
  /-- `page.waitForLoadState(...)` (may throw). -/
  waitLoad : Except String Unit

/-- The body of `goToNextPage` before the `catch`; each `await` that
may throw is an explicit `Except` propagation. -/
def goToNextPageRun (env : PageEnv) : Except String Bool :=
  match env.queryNext with
  | .error e => .error e
  | .ok none => .ok false
  | .ok (some btn) =>
    if isDisabledEval btn then .ok false
    else
      match env.click with
      | .error e => .error e
      | .ok _ =>
        match env.waitTimeout with
        | .error e => .error e
        | .ok _ =>
          match env.waitLoad with
          | .error e => .error e
          | .ok _ => .ok true

/-- `goToNextPage` from the source: any exception is caught and
reported as `false` (no next page); the function never throws. -/
def goToNextPage (env : PageEnv) : Bool :=
  match goToNextPageRun env with
  | .ok b => b
  | .error _ => false

/-! ## Checkpointed writer (`scrapeContacts` accumulation loop) -/

/-- The writer state: the in-memory `allContacts` array and the output
file (`none` until the first `saveToCSV`). -/
structure ScrapeState where
  accumulated : List ContactRecord
  disk : Option String
  deriving Repr

/-- The starting state of a run. -/
def initScrapeState : ScrapeState :=
  ⟨[], none⟩

/-- `allContacts.push(contact)` followed by the 10-record checkpoint:
`if (allContacts.length % 10 === 0) saveToCSV(allContacts, ...)`. -/
def pushContact (st : ScrapeState) (c : ContactRecord) : ScrapeState :=
  let acc := st.accumulated ++ [c]
  if acc.length % 10 = 0 then ⟨acc, some (toCSV acc)⟩
  else ⟨acc, st.disk⟩

/-- Accumulate a list of records in order. -/
def runPush (st : ScrapeState) (cs : List ContactRecord) : ScrapeState :=
  cs.foldl pushContact st

/-- The `catch` block of `scrapeContacts`: one unconditional flush of
whatever was accumulated (`if (allContacts.length > 0) saveToCSV(...)`). -/
def onFatalError (st : ScrapeState) : ScrapeState :=
  if 0 < st.accumulated.length then ⟨st.accumulated, some (toCSV st.accumulated)⟩
  else st

/-! ## Concrete sample inputs used by witnesses and counterexamples -/

/-- A row whose row text contains two phone-shaped substrings and whose
second column cell is phone-shaped. -/
def c1Row : RawRow where
  index := 0
  name := "John Smith"
  href := none
  rowText := "John Smith (111) 111-1111 (222) 222-2222"
  cellTexts := ["John Smith", "(222) 222-2222"]

/-- A plain record used to exercise the checkpointed writer. -/
def sampleContact : ContactRecord where
  firstName := "Jane"
  middleInitial := ""
  lastName := "Roe"
  address1 := "123 Main St"
  address2 := ""
  city := "Springfield"
  state := "IL"
  zip := "62704"
  phone := "(555) 123-4567"
  email := "jane@roe.org"

/-- A record with a comma, a quote and a newline in its fields. -/
def trickyContact : ContactRecord where
  firstName := "a,b"
  middleInitial := ""
  lastName := "q\"x"
  address1 := "1 Main\nApt 2"
  address2 := ""
  city := "C"
  state := "IL"
  zip := "62704"
  phone := "(1)"
  email := "e@f.gg"

/-- A detail page whose only email-shaped content is a generic
`support@company.com` mail link. -/
def supportPage : DetailPage where
  mailtoHref := some "mailto:support@company.com"
  bodyText := ""
  elementTexts := []

/-- A detail page with both a generic and a non-generic email in its
visible text and no mail link. -/
def mixedPage : DetailPage where
  mailtoHref := none
  bodyText := "reach support@foo.com or Jane.Doe@bar.org today"
  elementTexts := []

/-- A next-page control marked disabled by class, with text `Next`. -/
def disabledNextButton : NextButton where
  classList := ["disabled"]
  attrs := []
  text := "Next"

/-- An environment whose located next-page control is disabled. -/
def disabledEnv : PageEnv where
  queryNext := .ok (some disabledNextButton)
  click := .ok ()
  waitTimeout := .ok ()
  waitLoad := .ok ()

/-! ## Theorems -/

/-- **C8.** When navigation to a contact's detail page fails (timeout or
network error — any failed navigation, modelled as an `Except.error`),
`getEmailFromDetailPage` returns the empty string instead of propagating
the exception (the warning log is outside this embedding); being a total
function into `String`, it never throws, so a single failed detail fetch
never aborts the crawl. -/
theorem c8_nav_failure_returns_empty (e : String) :
    getEmailFromDetailPage (Except.error e) = "" := rfl

/-- **C6.** `goToNextPage` reports `false` whenever the located control
is marked disabled (disabled class, disabled attribute, or
`aria-disabled="true"` — the `isDisabledEval` predicate), regardless of
the control's text content (the predicate never reads `text`); it also
reports `false` instead of propagating when **any** of the step's
operations throws — locating the control, clicking it, the navigation-
delay wait, or the load-state wait — and when no control is found.  The
last conjunct is the catch-all: whatever operation raised the error,
the `catch` turns the whole step into `false`.  Being a total function
into `Bool`, it never throws. -/
theorem c6_disabled_or_error_reports_false :
    (∀ (env : PageEnv) (b : NextButton), env.queryNext = Except.ok (some b) →
       isDisabledEval b = true → goToNextPage env = false) ∧
    (∀ (env : PageEnv) (e : String), env.queryNext = Except.error e →
       goToNextPage env = false) ∧
    (∀ (env : PageEnv) (b : NextButton) (e : String),
       env.queryNext = Except.ok (some b) → env.click = Except.error e →
       goToNextPage env = false) ∧
    (∀ (env : PageEnv) (b : NextButton) (e : String),
       env.queryNext = Except.ok (some b) → env.waitTimeout = Except.error e →
       goToNextPage env = false) ∧
    (∀ (env : PageEnv) (b : NextButton) (e : String),
       env.queryNext = Except.ok (some b) → env.waitLoad = Except.error e →
       goToNextPage env = false) ∧
    (∀ env : PageEnv, env.queryNext = Except.ok none → goToNextPage env = false) ∧
    (∀ (env : PageEnv) (e : String), goToNextPageRun env = Except.error e →
       goToNextPage env = false) := by
  refine ⟨fun env b hq hd => ?_, fun env e hq => ?_, fun env b e hq hc => ?_,
    fun env b e hq hw => ?_, fun env b e hq hw => ?_, fun env hq => ?_,
    fun env e he => ?_⟩
  · simp [goToNextPage, goToNextPageRun, hq, hd]
  · simp [goToNextPage, goToNextPageRun, hq]
  · by_cases hd : isDisabledEval b
    · simp [goToNextPage, goToNextPageRun, hq, hd]
    · simp [goToNextPage, goToNextPageRun, hq, hd, hc]
  · by_cases hd : isDisabledEval b
    · simp [goToNextPage, goToNextPageRun, hq, hd]
    · cases hc : env.click with
      | error msg => simp [goToNextPage, goToNextPageRun, hq, hd, hc]
      | ok u => simp [goToNextPage, goToNextPageRun, hq, hd, hc, hw]
  · by_cases hd : isDisabledEval b
    · simp [goToNextPage, goToNextPageRun, hq, hd]
    · cases hc : env.click with
      | error msg => simp [goToNextPage, goToNextPageRun, hq, hd, hc]
      | ok u =>
        cases hwt : env.waitTimeout with
        | error msg => simp [goToNextPage, goToNextPageRun, hq, hd, hc, hwt]
        | ok v => simp [goToNextPage, goToNextPageRun, hq, hd, hc, hwt, hw]
  · simp [goToNextPage, goToNextPageRun, hq]
  · simp [goToNextPage, he]

/-- **C6 witness.** A control with text `Next` marked disabled via its
class list yields `false`. -/
theorem c6_witness :
    isDisabledEval disabledNextButton = true ∧ disabledNextButton.text = "Next" ∧
      goToNextPage disabledEnv = false :=
  ⟨by decide, rfl,
    c6_disabled_or_error_reports_false.1 disabledEnv disabledNextButton rfl (by decide)⟩

/-- **C9.** For every input with exactly one non-blank line,
`parseAddress` returns that (trimmed) line as `address1` with all other
fields empty — even when the line itself matches the `City, ST ZIP`
pattern — because city/state/zip extraction is only attempted with at
least two lines. -/
theorem c9_single_nonblank_line (text l : String)
    (h : addressLines text = [l]) :
    parseAddress text = ⟨l, "", "", "", ""⟩ := by
  have ht : text ≠ "" := by
    intro he
    rw [he] at h
    rw [show addressLines "" = [] from by decide] at h
    simp at h
  simp [parseAddress, ht, h]

/-- **C9 witness.** A single line that itself matches the
`City, ST ZIP` pattern still goes entirely into `address1`. -/
theorem c9_witness :
    cityStateZipLine "Springfield, IL 62704" = some ("Springfield", "IL", "62704") ∧
      parseAddress "Springfield, IL 62704" = ⟨"Springfield, IL 62704", "", "", "", ""⟩ :=
  ⟨by decide,
    c9_single_nonblank_line "Springfield, IL 62704" "Springfield, IL 62704" (by decide)⟩

/-- **C7.** With a mail link present, `getEmailFromDetailPage` returns
its (cleaned, stripped) address without any generic-address filtering —
so a page whose only email-shaped content is a generic mail link such as
`support@company.com` still yields that address; and with no mail link,
when the page-text scan finds at least one non-generic match, the first
non-generic match is returned even if generic matches are present. -/
theorem c7_email_preference :
    (∀ (page : DetailPage) (h : String), page.mailtoHref = some h →
       getEmailFromDetailPage (Except.ok page) = cleanEmail (stripMailto h)) ∧
    (∀ (page : DetailPage) (g : String) (gs : List String),
       page.mailtoHref = none →
       (findEmails page.bodyText).filter (fun e => !isGenericEmail e) = g :: gs →
       getEmailFromDetailPage (Except.ok page) = cleanEmail g) := by
  constructor
  · intro page h hm
    simp [getEmailFromDetailPage, evalEmail, hm]
  · intro page g gs hm hf
    cases hfe : findEmails page.bodyText with
    | nil => rw [hfe] at hf; simp at hf
    | cons m ms =>
      rw [hfe] at hf
      simp [getEmailFromDetailPage, evalEmail, hm, hfe, hf]

/-- **C7 witness.** The generic-mail-link-only page yields
`support@company.com`; a page text with both `support@foo.com` and
`Jane.Doe@bar.org` yields the (lower-cased) non-generic one. -/
theorem c7_witness :
    getEmailFromDetailPage (Except.ok supportPage) = "support@company.com" ∧
      getEmailFromDetailPage (Except.ok mixedPage) = "jane.doe@bar.org" := by
  constructor
  · have h := c7_email_preference.1 supportPage "mailto:support@company.com" (by decide)
    rw [h]; decide
  · have h := c7_email_preference.2 mixedPage "Jane.Doe@bar.org" [] (by decide) (by decide)
    rw [h]; decide

/-- **C3 counterexample.** On `"A . B"` the second token is `"."` —
not a single *letter*, so the claim's otherwise-branch prescribes the
token's first character `"."` as middle initial (and its if-branch,
read as "single character", prescribes the same) — but the code's
period-stripping `replace('.', '')` yields the empty middle initial. -/
theorem c3_counterexample :
    nameTokens "A . B" = ["A", ".", "B"] ∧
      (parseName "A . B").middleInitial = "" ∧
      (parseName "A . B").middleInitial ≠ jsCharAt0 "." := by
  refine ⟨by decide, by decide, by decide⟩

/-- Shared case analysis of `parseName` over its token list. -/
theorem parseName_cases (s : String) :
    (∀ a, nameTokens s = [a] → parseName s = ⟨a, "", ""⟩) ∧
    (∀ a b, nameTokens s = [a, b] → parseName s = ⟨a, "", b⟩) ∧
    (∀ a b rest, nameTokens s = a :: b :: rest → rest ≠ [] →
       (isInitialTok b = true →
          parseName s = ⟨a, replaceFirstStr "." "" b, joinSep " " rest⟩) ∧
       (isInitialTok b = false →
          parseName s = ⟨a, jsCharAt0 b, joinSep " " rest⟩)) := by
  refine ⟨fun a h => ?_, fun a b h => ?_, fun a b rest h hne => ?_⟩
  · by_cases hs : s = ""
    · subst hs
      rw [show nameTokens "" = [""] from by decide] at h
      simp only [List.cons.injEq] at h
      rw [← h.1]
      decide
    · simp [parseName, hs, h]
  · by_cases hs : s = ""
    · subst hs
      rw [show nameTokens "" = [""] from by decide] at h
      simp at h
    · simp [parseName, hs, h]
  · cases rest with
    | nil => exact absurd rfl hne
    | cons r rs =>
      by_cases hs : s = ""
      · subst hs
        rw [show nameTokens "" = [""] from by decide] at h
        simp at h
      · constructor
        · intro hb
          simp [parseName, hs, h, hb]
        · intro hb
          simp [parseName, hs, h, hb]

/-- **C3 (amended).** `parseName` splits on whitespace after trimming:
one token is taken entirely as first name, two tokens as first/last
with empty middle; with three or more tokens, if the second token is a
single character or two characters ending in a period, that token with
its first period removed becomes the middle initial (so `"J."` yields
`"J"` and a bare `"."` yields `""`), otherwise the second token's first
character becomes the middle initial; in both cases the remaining
tokens join as last name.  It never fails (it is a total function). -/
theorem c3_parse_name_cases (s : String) :
    (∀ a, nameTokens s = [a] → parseName s = ⟨a, "", ""⟩) ∧
    (∀ a b, nameTokens s = [a, b] → parseName s = ⟨a, "", b⟩) ∧
    (∀ a b rest, nameTokens s = a :: b :: rest → rest ≠ [] →
       (isInitialTok b = true →
          parseName s = ⟨a, replaceFirstStr "." "" b, joinSep " " rest⟩) ∧
       (isInitialTok b = false →
          parseName s = ⟨a, jsCharAt0 b, joinSep " " rest⟩)) :=
  parseName_cases s

/-- **C3 witness.** `"John Q. Public"` parses with stripped middle
initial `"Q"`. -/
theorem c3_witness : parseName "John Q. Public" = ⟨"John", "Q", "Public"⟩ := by
  have h := ((c3_parse_name_cases "John Q. Public").2.2 "John" "Q." ["Public"]
    (by decide) (by decide)).1 (by decide)
  rw [h]
  decide

/-- **C10 counterexample.** `parseName "A .foo B"` has middle initial
`"."`: the second token `".foo"` is longer than two characters, so its
first character — a period — becomes the middle initial, refuting
"never contains a period". -/
theorem c10_counterexample :
    (parseName "A .foo B").middleInitial = "." ∧
      ((parseName "A .foo B").middleInitial.data.contains '.') = true := by
  refine ⟨by decide, ?_⟩
  rw [(by decide : (parseName "A .foo B").middleInitial = ".")]
  decide

/-- Helper for C10: replacing the first period of a token accepted by
`isInitialTok` leaves at most one character. -/
theorem replaceFirstDot_length_le (l : List Char)
    (h : l.length = 1 ∨ (l.length = 2 ∧ l.getLast? = some '.')) :
    (replaceFirstAux ['.'] [] l).length ≤ 1 := by
  rcases h with h1 | ⟨h2, hlast⟩
  · obtain ⟨x, hx⟩ := List.length_eq_one.mp h1
    subst hx
    by_cases hx : ('.' : Char) = x
    · subst hx; decide
    · simp [replaceFirstAux, List.isPrefixOf, hx]
  · obtain ⟨x, y, hxy⟩ := List.length_eq_two.mp h2
    subst hxy
    have hy : y = '.' := by simpa using hlast
    subst hy
    by_cases hx : ('.' : Char) = x
    · subst hx; decide
    · simp [replaceFirstAux, List.isPrefixOf, hx]

/-- **C10 (amended).** The middleInitial returned by `parseName` is at
most one character long.  A middle token that is a non-period character
with a trailing period (such as `"J."`) is stripped to the bare
character, and a longer middle token contributes exactly its first
character — which can itself be a period (see the counterexample), so
the initial is not period-free in general. -/
theorem c10_middle_initial_shape :
    (∀ s : String, (parseName s).middleInitial.length ≤ 1) ∧
    (∀ (s a : String) (c : Char) (rest : List String),
       nameTokens s = a :: String.mk [c, '.'] :: rest → rest ≠ [] → c ≠ '.' →
       (parseName s).middleInitial = String.mk [c]) ∧
    (∀ (s a b : String) (rest : List String),
       nameTokens s = a :: b :: rest → rest ≠ [] → isInitialTok b = false →
       (parseName s).middleInitial = jsCharAt0 b) := by
  refine ⟨fun s => ?_, fun s a c rest h hne hc => ?_, fun s a b rest h hne hb => ?_⟩
  · by_cases hs : s = ""
    · subst hs; decide
    · rcases hl : nameTokens s with _ | ⟨a, _ | ⟨b, _ | ⟨r, rs⟩⟩⟩
      · simp [parseName, hs, hl]
      · simp [parseName, hs, hl]
      · simp [parseName, hs, hl]
      · by_cases hb : isInitialTok b
        · simp only [parseName, hs, if_neg hs, hl, hb, if_pos]
          show (replaceFirstAux ['.'] [] b.data).length ≤ 1
          apply replaceFirstDot_length_le
          have hlen : b.length = 1 ∨ (b.length = 2 ∧ b.data.getLast? = some '.') := by
            simpa [isInitialTok] using hb
          exact hlen
        · simp only [parseName, hs, if_neg hs, hl, hb, Bool.false_eq_true, if_false]
          rcases hd : b.data with _ | ⟨c, cs⟩
          · simp [jsCharAt0, hd]
          · simp [jsCharAt0, hd]
  · cases rest with
    | nil => exact absurd rfl hne
    | cons r rs =>
      have hlen2 : (String.mk [c, '.']).length = 2 := rfl
      have hlast : (String.mk [c, '.']).data.getLast? = some '.' := rfl
      have hinit : isInitialTok (String.mk [c, '.']) = true := by
        simp [isInitialTok, hlen2, hlast]
      have hp := ((parseName_cases s).2.2 a (String.mk [c, '.']) (r :: rs) h
        (by simp)).1 hinit
      rw [hp]
      show String.mk (replaceFirstAux ['.'] [] [c, '.']) = String.mk [c]
      have hc2 : (('.' : Char) = c) = False := by
        simp
        exact fun hcc => absurd hcc.symm hc
      simp [replaceFirstAux, List.isPrefixOf, hc2]
  · cases rest with
    | nil => exact absurd rfl hne
    | cons r rs =>
      have hp := ((parseName_cases s).2.2 a b (r :: rs) h (by simp)).2 hb
      rw [hp]

/-- **C4 counterexample.** On a single-line input whose only line
matches the `City, ST ZIP` pattern, the claim as stated prescribes
city/state/zip extraction from that (last) line, but `parseAddress`
returns the whole line as `address1` and leaves city/state/zip empty:
extraction is guarded by the presence of at least two lines. -/
theorem c4_counterexample :
    cityStateZipLine "Madison, WI 53703" = some ("Madison", "WI", "53703") ∧
      parseAddress "Madison, WI 53703" = ⟨"Madison, WI 53703", "", "", "", ""⟩ := by
  exact ⟨by decide, by decide⟩

/-- **C4 (amended).** `parseAddress` splits on line breaks, trims and
drops blank lines, and takes the first line as `address1`.  When there
are **at least two** lines and the last line matches the
`city, two-letter state, 5- or 9-digit ZIP` pattern (state matched
case-insensitively), city/state/zip are extracted from it (city
trimmed, state upper-cased) and the interior lines join with `", "` as
`address2`; otherwise all lines after the first join as `address2` with
city/state/zip empty.  A single-line input yields only `address1`. -/
theorem c4_parse_address (text : String) :
    (∀ l rest, addressLines text = l :: rest → rest ≠ [] →
       (∀ c st z, cityStateZipLine ((l :: rest).getLast!) = some (c, st, z) →
          parseAddress text =
            ⟨l, joinSep ", " rest.dropLast, trimStr c, toUpperStr st, z⟩) ∧
       (cityStateZipLine ((l :: rest).getLast!) = none →
          parseAddress text = ⟨l, joinSep ", " rest, "", "", ""⟩)) ∧
    (∀ l, addressLines text = [l] → parseAddress text = ⟨l, "", "", "", ""⟩) := by
  have hemp : addressLines "" = [] := by decide
  constructor
  · intro l rest h hne
    have ht : text ≠ "" := by
      intro he
      rw [he, hemp] at h
      simp at h
    cases rest with
    | nil => exact absurd rfl hne
    | cons r rs =>
      constructor
      · intro c st z hm
        cases rs with
        | nil =>
          simp [parseAddress, ht, h, hm, joinSep]
        | cons r2 rs2 =>
          simp [parseAddress, ht, h, hm]
      · intro hm
        simp [parseAddress, ht, h, hm]
  · intro l h
    have ht : text ≠ "" := by
      intro he
      rw [he, hemp] at h
      simp at h
    simp [parseAddress, ht, h]

/-- **C4 witness.** The claim's concrete example:
`"123 Main St\nSpringfield, IL 62704"`. -/
theorem c4_witness :
    parseAddress "123 Main St\nSpringfield, IL 62704" =
      ⟨"123 Main St", "", "Springfield", "IL", "62704"⟩ := by
  have h := ((c4_parse_address "123 Main St\nSpringfield, IL 62704").1
    "123 Main St" ["Springfield, IL 62704"] (by decide) (by simp)).1
    "Springfield" "IL" "62704" (by decide)
  rw [h]
  decide

/-- Helper: the leading-digit address check never touches phone, city,
state or zip. -/
theorem applyCellAddr_fields (st : CellScan) (cell : String) :
    (applyCell.applyCellAddr st cell).phone = st.phone ∧
    (applyCell.applyCellAddr st cell).city = st.city ∧
    (applyCell.applyCellAddr st cell).state = st.state ∧
    (applyCell.applyCellAddr st cell).zip = st.zip := by
  unfold applyCell.applyCellAddr
  split <;> simp

/-- Helper: the city/state/zip cell check never touches phone. -/
theorem applyCellCity_phone (st : CellScan) (cell : String) :
    (applyCell.applyCellCity st cell).phone = st.phone := by
  unfold applyCell.applyCellCity
  cases hm : cellCityMatch cell with
  | none => exact (applyCellAddr_fields st cell).1
  | some v =>
    obtain ⟨c, s2, z⟩ := v
    by_cases hc : st.city = ""
    · simp [hc]
    · simp [hc, (applyCellAddr_fields st cell).1]

/-- Helper: the city/state/zip cell check leaves city/state/zip alone
when city is already set. -/
theorem applyCellCity_city (st : CellScan) (cell : String) (h : st.city ≠ "") :
    (applyCell.applyCellCity st cell).city = st.city ∧
    (applyCell.applyCellCity st cell).state = st.state ∧
    (applyCell.applyCellCity st cell).zip = st.zip := by
  unfold applyCell.applyCellCity
  cases hm : cellCityMatch cell with
  | none => exact ⟨(applyCellAddr_fields st cell).2.1,
      (applyCellAddr_fields st cell).2.2.1, (applyCellAddr_fields st cell).2.2.2⟩
  | some v =>
    obtain ⟨c, s2, z⟩ := v
    simp [h, (applyCellAddr_fields st cell).2.1,
      (applyCellAddr_fields st cell).2.2.1, (applyCellAddr_fields st cell).2.2.2]

/-- Helper: a non-empty phone is never overwritten by a column cell. -/
theorem applyCell_phone (st : CellScan) (p : Nat × String) (h : st.phone ≠ "") :
    (applyCell st p).phone = st.phone := by
  unfold applyCell
  by_cases hi : p.1 = 0
  · simp [hi]
  · cases hm : phoneRowMatch p.2 with
    | none => simp [hi, hm, applyCellCity_phone]
    | some pm => simp [hi, hm, h, applyCellCity_phone]

/-- Helper: non-empty city (and its state/zip) survive a column cell. -/
theorem applyCell_city (st : CellScan) (p : Nat × String) (h : st.city ≠ "") :
    (applyCell st p).city = st.city ∧ (applyCell st p).state = st.state ∧
      (applyCell st p).zip = st.zip := by
  unfold applyCell
  by_cases hi : p.1 = 0
  · simp [hi]
  · cases hm : phoneRowMatch p.2 with
    | none => simpa [hi, hm] using applyCellCity_city st p.2 h
    | some pm =>
      by_cases hp : st.phone = ""
      · simp [hi, hm, hp]
      · simpa [hi, hm, hp] using applyCellCity_city st p.2 h

/-- Helper: the whole per-column pass preserves a non-empty phone. -/
theorem foldl_applyCell_phone (l : List (Nat × String)) :
    ∀ st : CellScan, st.phone ≠ "" → (l.foldl applyCell st).phone = st.phone := by
  induction l with
  | nil => intro st _; rfl
  | cons p l ih =>
    intro st h
    have h1 := applyCell_phone st p h
    rw [List.foldl_cons, ih (applyCell st p) (h1 ▸ h), h1]

/-- Helper: the whole per-column pass preserves a non-empty city and
its state/zip. -/
theorem foldl_applyCell_city (l : List (Nat × String)) :
    ∀ st : CellScan, st.city ≠ "" →
      (l.foldl applyCell st).city = st.city ∧
      (l.foldl applyCell st).state = st.state ∧
      (l.foldl applyCell st).zip = st.zip := by
  induction l with
  | nil => intro st _; exact ⟨rfl, rfl, rfl⟩
  | cons p l ih =>
    intro st h
    obtain ⟨h1, h2, h3⟩ := applyCell_city st p h
    obtain ⟨g1, g2, g3⟩ := ih (applyCell st p) (h1 ▸ h)
    rw [List.foldl_cons]
    exact ⟨g1.trans h1, g2.trans h2, g3.trans h3⟩

/-- **C1 counterexample.** The row text's first phone match is
`(111) 111-1111`; the second column cell `(222) 222-2222` matches the
per-column phone pattern, yet the record keeps the row-text value, so
the per-column match does **not** override the row-text guess. -/
theorem c1_counterexample :
    c1Row.cellTexts = ["John Smith", "(222) 222-2222"] ∧
      phoneRowMatch "(222) 222-2222" = some "(222) 222-2222" ∧
      phoneRowMatch c1Row.rowText = some "(111) 111-1111" ∧
      (parseContactFromRow c1Row).phone = "(111) 111-1111" ∧
      (parseContactFromRow c1Row).phone ≠ cleanPhone "(222) 222-2222" := by
  refine ⟨rfl, by decide, by decide, by decide, ?_⟩
  rw [(by decide : (parseContactFromRow c1Row).phone = "(111) 111-1111")]
  decide

/-- **C1 (amended).** The precedence is the reverse of the claim: the
row-text-wide guesses of steps 1–3 win.  When the row text matches the
phone pattern (with non-empty cleaned value), the record's phone is the
cleaned row-text match — the per-column pass only fills a still-empty
phone; likewise, when the row text matches the `City, ST ZIP` pattern
(with non-empty trimmed city), the record's city/state/zip come from
the row-text match and no column cell overrides them. -/
theorem c1_rowtext_precedence :
    (∀ (rd : RawRow) (m : String), phoneRowMatch rd.rowText = some m →
       cleanPhone m ≠ "" → (parseContactFromRow rd).phone = cleanPhone m) ∧
    (∀ (rd : RawRow) (c s z : String), cityRowMatch rd.rowText = some (c, s, z) →
       trimStr c ≠ "" →
       (parseContactFromRow rd).city = trimStr c ∧
       (parseContactFromRow rd).state = s ∧ (parseContactFromRow rd).zip = z) := by
  constructor
  · intro rd m hp hm
    simp only [parseContactFromRow, hp]
    split
    · exact foldl_applyCell_phone _ _ hm
    · rfl
  · intro rd c s z hc ht
    simp only [parseContactFromRow, hc]
    split
    · exact foldl_applyCell_city _ _ ht
    · exact ⟨rfl, rfl, rfl⟩

/-- **C1 witness.** On the counterexample row the phone is the cleaned
row-text match. -/
theorem c1_witness :
    (parseContactFromRow c1Row).phone = cleanPhone "(111) 111-1111" :=
  c1_rowtext_precedence.1 c1Row "(111) 111-1111" (by decide) (by decide)

/-- **C10 witness.** A `"J."` middle token is stripped to `"J"`; a
longer middle token contributes its first character. -/
theorem c10_witness :
    (parseName "John J. Smith").middleInitial = "J" ∧
      (parseName "Mary Anne Louise Smith").middleInitial = jsCharAt0 "Anne" := by
  constructor
  · exact c10_middle_initial_shape.2.1 "John J. Smith" "John" 'J' ["Smith"]
      (by decide) (by simp) (by decide)
  · exact c10_middle_initial_shape.2.2 "Mary Anne Louise Smith" "Mary" "Anne"
      ["Louise", "Smith"] (by decide) (by simp) (by decide)

/-- Helper: pushing a record always appends it to the accumulator. -/
theorem pushContact_acc (st : ScrapeState) (c : ContactRecord) :
    (pushContact st c).accumulated = st.accumulated ++ [c] := by
  unfold pushContact
  dsimp only
  split <;> rfl

/-- Helper: accumulation is concatenation. -/
theorem runPush_accumulated (cs : List ContactRecord) :
    ∀ st : ScrapeState, (runPush st cs).accumulated = st.accumulated ++ cs := by
  induction cs with
  | nil => intro st; simp [runPush]
  | cons c cs ih =>
    intro st
    show (runPush (pushContact st c) cs).accumulated = _
    rw [ih, pushContact_acc]
    simp

/-- Helper: a push that does not land on a multiple of ten leaves the
file untouched. -/
theorem pushContact_disk_noflush (st : ScrapeState) (c : ContactRecord)
    (h : (st.accumulated.length + 1) % 10 ≠ 0) :
    (pushContact st c).disk = st.disk := by
  unfold pushContact
  have hc : ¬((st.accumulated ++ [c]).length % 10 = 0) := by
    rw [List.length_append]
    simpa using h
  rw [if_neg hc]

/-- Helper: a run of pushes none of which lands on a multiple of ten
leaves the file untouched. -/
theorem runPush_disk_noflush (cs : List ContactRecord) :
    ∀ st : ScrapeState,
      (∀ k, k < cs.length → (st.accumulated.length + k + 1) % 10 ≠ 0) →
      (runPush st cs).disk = st.disk := by
  induction cs with
  | nil => intro st _; rfl
  | cons c cs ih =>
    intro st h
    have h0 : (st.accumulated.length + 1) % 10 ≠ 0 := by
      simpa using h 0 (by simp)
    show (runPush (pushContact st c) cs).disk = _
    rw [ih (pushContact st c) ?_, pushContact_disk_noflush st c h0]
    intro k hk
    rw [pushContact_acc, List.length_append]
    have h1 := h (k + 1) (by simpa using Nat.succ_lt_succ hk)
    simp only [List.length_cons, List.length_nil]
    omega

/-- Helper: a joined list is a string prefix of the join of any
extension. -/
theorem joinSep_append_exists (sep : String) (l1 l2 : List String) :
    ∀ x : String, ∃ t, joinSep sep (x :: (l1 ++ l2)) = joinSep sep (x :: l1) ++ t := by
  induction l1 with
  | nil =>
    intro x
    cases l2 with
    | nil => exact ⟨"", by simp [joinSep]⟩
    | cons y ys =>
      refine ⟨sep ++ joinSep sep (y :: ys), ?_⟩
      show joinSep sep (x :: y :: ys) = joinSep sep [x] ++ (sep ++ joinSep sep (y :: ys))
      cases ys with
      | nil => simp [joinSep, String.append_assoc]
      | cons z zs => simp [joinSep, String.append_assoc]
  | cons z l1 ih =>
    intro x
    obtain ⟨t, ht⟩ := ih z
    refine ⟨t, ?_⟩
    show joinSep sep (x :: z :: (l1 ++ l2)) = joinSep sep (x :: z :: l1) ++ t
    have e1 : joinSep sep (x :: z :: (l1 ++ l2)) =
        x ++ sep ++ joinSep sep (z :: (l1 ++ l2)) := rfl
    have e2 : joinSep sep (x :: z :: l1) = x ++ sep ++ joinSep sep (z :: l1) := rfl
    rw [e1, e2, ht]
    simp [String.append_assoc]

/-- Helper: pushing a concatenation is sequential pushing. -/
theorem runPush_append (st : ScrapeState) (l1 l2 : List ContactRecord) :
    runPush st (l1 ++ l2) = runPush (runPush st l1) l2 := by
  unfold runPush
  rw [List.foldl_append]

/-- Helper: pushing one more record. -/
theorem runPush_concat (st : ScrapeState) (l : List ContactRecord) (x : ContactRecord) :
    runPush st (l ++ [x]) = pushContact (runPush st l) x := by
  unfold runPush
  rw [List.foldl_append]
  rfl

/-- Helper: the CSV of a list extends the CSV of any of its prefixes. -/
theorem toCSV_take_prefix (l : List ContactRecord) (n : Nat) :
    ∃ t, toCSV l = toCSV (l.take n) ++ t := by
  obtain ⟨t, ht⟩ := joinSep_append_exists "\n" ((l.take n).map csvRow)
    ((l.drop n).map csvRow) (joinSep "," (CSV_HEADERS.map fun h => escapeCSV (some h)))
  refine ⟨t, ?_⟩
  unfold toCSV
  rw [← ht]
  congr 1
  rw [← List.map_append, List.take_append_drop]

/-- **C2.** A fatal error after exactly 23 accumulated records leaves
the on-disk CSV containing all 23 records (the catch block performs one
unconditional full flush); just before the error the disk held exactly
the 20-record checkpoint (flushes fire on every 10th record, and pushes
21–23 do not flush), and the final file textually extends the
20-record checkpoint file — never zero records, never truncated below
the last flush point. -/
theorem c2_checkpoint_and_error_flush (rs : List ContactRecord) (h : rs.length = 23) :
    (runPush initScrapeState rs).disk = some (toCSV (rs.take 20)) ∧
    (onFatalError (runPush initScrapeState rs)).disk = some (toCSV rs) ∧
    ∃ t, toCSV rs = toCSV (rs.take 20) ++ t := by
  have hab : rs.take 20 ++ rs.drop 20 = rs := List.take_append_drop 20 rs
  have ha : (rs.take 20).length = 20 := by rw [List.length_take]; omega
  have hb : (rs.drop 20).length = 3 := by rw [List.length_drop]; omega
  have ha19 : ((rs.take 20).take 19).length = 19 := by rw [List.length_take]; omega
  have hd1 : ((rs.take 20).drop 19).length = 1 := by rw [List.length_drop]; omega
  obtain ⟨x, hx⟩ := List.length_eq_one.mp hd1
  have hsplit : (rs.take 20).take 19 ++ [x] = rs.take 20 := by
    rw [← hx, List.take_append_drop]
  have hacc19 : (runPush initScrapeState ((rs.take 20).take 19)).accumulated =
      (rs.take 20).take 19 := by
    rw [runPush_accumulated]
    rfl
  have hstep : runPush initScrapeState (rs.take 20) =
      pushContact (runPush initScrapeState ((rs.take 20).take 19)) x := by
    conv_lhs => rw [← hsplit]
    exact runPush_concat _ _ _
  have hdisk_a : (runPush initScrapeState (rs.take 20)).disk =
      some (toCSV (rs.take 20)) := by
    rw [hstep]
    unfold pushContact
    have hlen : ((runPush initScrapeState ((rs.take 20).take 19)).accumulated ++
        [x]).length % 10 = 0 := by
      rw [hacc19, List.length_append, ha19]
      simp
    rw [if_pos hlen]
    show some (toCSV _) = _
    rw [hacc19, hsplit]
  have hsplit2 : runPush initScrapeState rs =
      runPush (runPush initScrapeState (rs.take 20)) (rs.drop 20) := by
    conv_lhs => rw [← hab]
    exact runPush_append _ _ _
  have hacc_a : (runPush initScrapeState (rs.take 20)).accumulated = rs.take 20 := by
    rw [runPush_accumulated]
    rfl
  have hdisk_rs : (runPush initScrapeState rs).disk = some (toCSV (rs.take 20)) := by
    rw [hsplit2, runPush_disk_noflush (rs.drop 20) _ ?_, hdisk_a]
    intro k hk
    rw [hacc_a, ha]
    rw [hb] at hk
    omega
  have hacc_rs : (runPush initScrapeState rs).accumulated = rs := by
    rw [runPush_accumulated]
    rfl
  refine ⟨hdisk_rs, ?_, toCSV_take_prefix rs 20⟩
  unfold onFatalError
  rw [hacc_rs]
  rw [if_pos (by omega)]

/-- **C2 witness.** A concrete 23-record run. -/
theorem c2_witness :
    (onFatalError (runPush initScrapeState (List.replicate 23 sampleContact))).disk =
      some (toCSV (List.replicate 23 sampleContact)) :=
  (c2_checkpoint_and_error_flush (List.replicate 23 sampleContact) (by simp)).2.1

/-- Helper: rebuilding a string from its characters. -/
theorem mk_data (s : String) : String.mk s.data = s := by
  obtain ⟨d⟩ := s
  rfl

/-- Helper: `String` append is `List` append on the characters. -/
theorem data_append (a b : String) : (a ++ b).data = a.data ++ b.data := rfl

/-- Step equation: a lone closing quote before end of input. -/
theorem csvParseAux_close_end (acc : List Char) :
    csvParseAux ['"'] true acc = csvParseAux [] false acc := rfl

/-- Step equation: a closing quote before a non-quote character. -/
theorem csvParseAux_close (r : Char) (rs acc : List Char) (hr : r ≠ '"') :
    csvParseAux ('"' :: r :: rs) true acc = csvParseAux (r :: rs) false acc := by
  rw [csvParseAux.eq_def]
  simp [hr]

/-- Step equation: a doubled quote inside quotes. -/
theorem csvParseAux_escaped (rs acc : List Char) :
    csvParseAux ('"' :: '"' :: rs) true acc = csvParseAux rs true ('"' :: acc) := rfl

/-- Step equation: an ordinary character inside quotes. -/
theorem csvParseAux_char_true (c : Char) (rs acc : List Char) (hc : c ≠ '"') :
    csvParseAux (c :: rs) true acc = csvParseAux rs true (c :: acc) := by
  rw [csvParseAux.eq_def]
  simp [hc]

/-- Step equation: a comma outside quotes ends the field. -/
theorem csvParseAux_comma (rs acc : List Char) :
    csvParseAux (',' :: rs) false acc =
      String.mk acc.reverse :: csvParseAux rs false [] := rfl

/-- Step equation: an opening quote outside quotes. -/
theorem csvParseAux_open (rs acc : List Char) :
    csvParseAux ('"' :: rs) false acc = csvParseAux rs true acc := by
  rw [csvParseAux.eq_def]
  simp

/-- Step equation: an ordinary character outside quotes. -/
theorem csvParseAux_char_false (c : Char) (rs acc : List Char)
    (hc1 : c ≠ ',') (hc2 : c ≠ '"') :
    csvParseAux (c :: rs) false acc = csvParseAux rs false (c :: acc) := by
  rw [csvParseAux.eq_def]
  simp [hc1, hc2]

/-- Helper: scanning doubled-quote content inside quotes accumulates
the original characters and leaves the quoted state at the closing
quote (which must not be followed by another quote). -/
theorem csvParse_dq (l : List Char) :
    ∀ rest acc : List Char, rest.head? ≠ some '"' →
      csvParseAux (doubleQuotesL l ++ '"' :: rest) true acc =
        csvParseAux rest false (l.reverse ++ acc) := by
  induction l with
  | nil =>
    intro rest acc h
    cases rest with
    | nil => rfl
    | cons r rs =>
      have hr : r ≠ '"' := by
        intro he
        rw [List.head?_cons, he] at h
        exact h rfl
      show csvParseAux ('"' :: r :: rs) true acc = _
      rw [csvParseAux_close r rs acc hr]
      simp
  | cons c l ih =>
    intro rest acc h
    by_cases hc : c = '"'
    · subst hc
      show csvParseAux ('"' :: '"' :: (doubleQuotesL l ++ '"' :: rest)) true acc = _
      rw [csvParseAux_escaped, ih rest ('"' :: acc) h]
      simp
    · have hdq : doubleQuotesL (c :: l) = c :: doubleQuotesL l := by
        simp [doubleQuotesL, hc]
      rw [hdq]
      show csvParseAux (c :: (doubleQuotesL l ++ '"' :: rest)) true acc = _
      rw [csvParseAux_char_true c _ acc hc, ih rest (c :: acc) h]
      simp

/-- Helper: scanning plain (comma- and quote-free) characters outside
quotes accumulates them. -/
theorem csvParse_plain (l : List Char) :
    ∀ rest acc : List Char, (∀ c ∈ l, c ≠ ',' ∧ c ≠ '"') →
      csvParseAux (l ++ rest) false acc =
        csvParseAux rest false (l.reverse ++ acc) := by
  induction l with
  | nil => intro rest acc _; simp
  | cons c l ih =>
    intro rest acc h
    obtain ⟨hc1, hc2⟩ := h c (by simp)
    show csvParseAux (c :: (l ++ rest)) false acc = _
    rw [csvParseAux_char_false c _ acc hc1 hc2,
      ih rest (c :: acc) (fun d hd => h d (by simp [hd]))]
    simp

/-- Helper: a `contains = false` list has no such member. -/
theorem not_mem_of_contains_false {l : List Char} {c : Char}
    (h : l.contains c = false) : c ∉ l := by
  simp at h
  exact h

/-- Helper: an unquoted field has no comma, quote or newline. -/
theorem needsQuote_false_chars {f : String} (h : needsQuote f = false) :
    ∀ c ∈ f.data, c ≠ ',' ∧ c ≠ '"' := by
  intro c hc
  unfold needsQuote at h
  simp only [Bool.or_eq_false_iff] at h
  obtain ⟨⟨h1, h2⟩, _⟩ := h
  constructor
  · intro he; subst he; exact not_mem_of_contains_false h1 hc
  · intro he; subst he; exact not_mem_of_contains_false h2 hc

/-- Helper: one escaped field followed by a comma parses back to the
field and continues after the comma. -/
theorem csvParse_field_comma (f : String) (r : List Char) :
    csvParseAux ((escapeCSV (some f)).data ++ ',' :: r) false [] =
      f :: csvParseAux r false [] := by
  by_cases hq : needsQuote f
  · have hd : (escapeCSV (some f)).data = '"' :: (doubleQuotesL f.data ++ ['"']) := by
      simp [escapeCSV, hq]
    rw [hd]
    show csvParseAux ('"' :: ((doubleQuotesL f.data ++ ['"']) ++ ',' :: r)) false [] = _
    rw [List.append_assoc]
    show csvParseAux ('"' :: (doubleQuotesL f.data ++ '"' :: ',' :: r)) false [] = _
    rw [csvParseAux_open, csvParse_dq f.data (',' :: r) [] (by simp),
      csvParseAux_comma]
    simp [mk_data]
  · have hd : (escapeCSV (some f)).data = f.data := by
      simp [escapeCSV, hq]
    rw [hd, csvParse_plain f.data (',' :: r) [] (needsQuote_false_chars (by simpa using hq)),
      csvParseAux_comma]
    simp [mk_data]

/-- Helper: a final escaped field parses back to the field. -/
theorem csvParse_field_end (f : String) :
    csvParseAux (escapeCSV (some f)).data false [] = [f] := by
  by_cases hq : needsQuote f
  · have hd : (escapeCSV (some f)).data = '"' :: (doubleQuotesL f.data ++ ['"']) := by
      simp [escapeCSV, hq]
    rw [hd]
    show csvParseAux ('"' :: (doubleQuotesL f.data ++ '"' :: [])) false [] = _
    rw [csvParseAux_open, csvParse_dq f.data [] [] (by simp)]
    simp [csvParseAux, mk_data]
  · have hd : (escapeCSV (some f)).data = f.data := by
      simp [escapeCSV, hq]
    rw [hd]
    have step := csvParse_plain f.data [] [] (needsQuote_false_chars (by simpa using hq))
    rw [List.append_nil] at step
    rw [step]
    simp [csvParseAux, mk_data]

/-- Helper: a whole escaped record parses back to its field list. -/
theorem csvParse_fields (fs : List String) (h : fs ≠ []) :
    csvParseAux (joinSep "," (fs.map fun f => escapeCSV (some f))).data false [] = fs := by
  induction fs with
  | nil => exact absurd rfl h
  | cons f fs ih =>
    cases fs with
    | nil =>
      show csvParseAux (escapeCSV (some f)).data false [] = [f]
      exact csvParse_field_end f
    | cons f2 fs2 =>
      have hj : joinSep "," ((f :: f2 :: fs2).map fun g => escapeCSV (some g)) =
          escapeCSV (some f) ++ "," ++
            joinSep "," ((f2 :: fs2).map fun g => escapeCSV (some g)) := rfl
      rw [hj, data_append, data_append]
      have hcomma : ("," : String).data = [','] := rfl
      rw [hcomma, List.append_assoc]
      show csvParseAux ((escapeCSV (some f)).data ++ ',' ::
        (joinSep "," ((f2 :: fs2).map fun g => escapeCSV (some g))).data) false [] = _
      rw [csvParse_field_comma]
      rw [ih (by simp)]

/-- **C5.** `escapeCSV` round-trips: parsing a CSV data row produced by
`toCSV` (unquoting quoted fields and collapsing doubled quotes)
recovers the original ten field values exactly, including fields
containing commas, quotes, or newlines; `escapeCSV` wraps a field in
quotes and doubles internal quotes exactly when it contains a comma,
quote, or newline, passes it through unchanged otherwise, and maps a
`null`/absent field to the empty string. -/
theorem c5_csv_roundtrip :
    (∀ c : ContactRecord, parseCSVRecord (csvRow c) = contactFields c) ∧
    escapeCSV none = "" ∧
    (∀ f : String, needsQuote f = true →
       escapeCSV (some f) = "\"" ++ String.mk (doubleQuotesL f.data) ++ "\"") ∧
    (∀ f : String, needsQuote f = false → escapeCSV (some f) = f) := by
  refine ⟨fun c => ?_, rfl, fun f hq => ?_, fun f hq => ?_⟩
  · exact csvParse_fields (contactFields c) (by simp [contactFields])
  · simp [escapeCSV, hq]
    rfl
  · simp [escapeCSV, hq]

/-- **C5 witness.** The round trip on a record with a comma, a quote
and a newline among its fields, and quote-wrapping on `"a,b"`. -/
theorem c5_witness :
    parseCSVRecord (csvRow trickyContact) = contactFields trickyContact ∧
      escapeCSV (some "a,b") = "\"a,b\"" := by
  constructor
  · exact c5_csv_roundtrip.1 trickyContact
  · have h := c5_csv_roundtrip.2.2.1 "a,b" (by decide)
    rw [h]
    decide

end Scraper
